import Mathlib

/-!
Verification of the transit light-curve model in `demo_plots.py`.

The script defines a shared time grid `time = np.linspace(-1.5, 1.5, 400)`
and three pure model functions mapping shape parameters to a flux series
over that grid: `symmetric_transit`, `asymmetric_transit`, `ringed_transit`.
We embed the grid and the three functions shallowly over the reals
(`np.exp` becomes `Real.exp`, `np.sin` becomes `Real.sin`, `abs` becomes
`|·|`) and prove the specified properties about them.
-/

namespace DemoPlots

noncomputable section

/-- The shared time grid, `np.linspace(-1.5, 1.5, 400)` (line 6 of the
source): 400 evenly spaced samples from -1.5 to 1.5 inclusive, so the
i-th sample is `-1.5 + i * (1.5 - (-1.5)) / (400 - 1)`. -/
def time (i : Fin 400) : ℝ :=
  -1.5 + (i.val : ℝ) * (3 / 399)

/-- Loop-body / vectorized formula of `symmetric_transit` (line 10 of the
source), as a function of a single time value `t`:
`1.0 - depth * np.exp(-0.5 * (t / sigma) ** 2)`. -/
def symmetric_transit_at (depth sigma t : ℝ) : ℝ :=
  1.0 - depth * Real.exp (-0.5 * (t / sigma) ^ 2)

/-- `symmetric_transit(depth, sigma)` (lines 9-10 of the source): the
vectorized formula applied to every sample of the shared grid. -/
def symmetric_transit (depth sigma : ℝ) : Fin 400 → ℝ :=
  fun i => symmetric_transit_at depth sigma (time i)

/-- Loop body of `asymmetric_transit` (lines 19-25 of the source): for
`t < 0` the ingress width `sigma` is used, otherwise the egress width
`sigma * asymmetry_factor`. -/
def asymmetric_transit_at (depth sigma asymmetry_factor t : ℝ) : ℝ :=
  if t < 0 then
    1.0 - depth * Real.exp (-0.5 * (t / sigma) ^ 2)
  else
    1.0 - depth * Real.exp (-0.5 * (t / (sigma * asymmetry_factor)) ^ 2)

/-- `asymmetric_transit(depth, sigma, asymmetry_factor)` (lines 13-26 of
the source): the loop over the shared grid. In the source
`asymmetry_factor` defaults to `2.0`; here every call passes it
explicitly. -/
def asymmetric_transit (depth sigma asymmetry_factor : ℝ) : Fin 400 → ℝ :=
  fun i => asymmetric_transit_at depth sigma asymmetry_factor (time i)

/-- The ring-modulation term of `ringed_transit` (lines 50 and 54 of the
source, the identical expression appears in both branches):
`ring_amp * np.sin(ring_freq * t) * np.exp(-abs(t) / 0.3)`. -/
def ring_mod (ring_amp ring_freq t : ℝ) : ℝ :=
  ring_amp * Real.sin (ring_freq * t) * Real.exp (-|t| / 0.3)

/-- Loop body of `ringed_transit` (lines 47-55 of the source): the same
piecewise base dip as `asymmetric_transit`, plus the ring modulation term,
which is written out identically in both branches of the source. -/
def ringed_transit_at (depth sigma asymmetry_factor ring_amp ring_freq t : ℝ) : ℝ :=
  if t < 0 then
    (1.0 - depth * Real.exp (-0.5 * (t / sigma) ^ 2)) +
      ring_amp * Real.sin (ring_freq * t) * Real.exp (-|t| / 0.3)
  else
    (1.0 - depth * Real.exp (-0.5 * (t / (sigma * asymmetry_factor)) ^ 2)) +
      ring_amp * Real.sin (ring_freq * t) * Real.exp (-|t| / 0.3)

/-- `ringed_transit(depth, sigma, asymmetry_factor, ring_amp, ring_freq)`
(lines 29-56 of the source): the loop over the shared grid. -/
def ringed_transit (depth sigma asymmetry_factor ring_amp ring_freq : ℝ) : Fin 400 → ℝ :=
  fun i => ringed_transit_at depth sigma asymmetry_factor ring_amp ring_freq (time i)

/-- The single error kind named by the spec's error taxonomy. The source
contains no definition of it and no `raise` statement. -/
inductive ModelError
  | InvalidParameter
  deriving DecidableEq

/-- Embedding of a Python call to `symmetric_transit`: a call either
returns a value or raises. The source body (lines 9-10) has no `raise`
statement and numpy division by zero does not raise, so every call
returns normally with the flux series. -/
def symmetric_transit_run (depth sigma : ℝ) : Except ModelError (Fin 400 → ℝ) :=
  Except.ok (symmetric_transit depth sigma)

/-- Embedding of a Python call to `asymmetric_transit` (lines 13-26): no
`raise` statement, so every call returns normally. -/
def asymmetric_transit_run (depth sigma asymmetry_factor : ℝ) :
    Except ModelError (Fin 400 → ℝ) :=
  Except.ok (asymmetric_transit depth sigma asymmetry_factor)

/-- Embedding of a Python call to `ringed_transit` (lines 29-56): no
`raise` statement, so every call returns normally. -/
def ringed_transit_run (depth sigma asymmetry_factor ring_amp ring_freq : ℝ) :
    Except ModelError (Fin 400 → ℝ) :=
  Except.ok (ringed_transit depth sigma asymmetry_factor ring_amp ring_freq)

/-- The time grid as a list, as the flux arrays are consumed (one sample
per grid point). -/
def time_list : List ℝ := List.ofFn time

/-- The flux array returned by `symmetric_transit`, as a list. -/
def symmetric_transit_list (depth sigma : ℝ) : List ℝ :=
  List.ofFn (symmetric_transit depth sigma)

/-- The flux array returned by `asymmetric_transit`, as a list. -/
def asymmetric_transit_list (depth sigma asymmetry_factor : ℝ) : List ℝ :=
  List.ofFn (asymmetric_transit depth sigma asymmetry_factor)

/-- The flux array returned by `ringed_transit`, as a list. -/
def ringed_transit_list (depth sigma asymmetry_factor ring_amp ring_freq : ℝ) : List ℝ :=
  List.ofFn (ringed_transit depth sigma asymmetry_factor ring_amp ring_freq)

/-- The exponential envelope of the ring modulation,
`ring_amp * exp(-|t| / 0.3)`: the ring-modulation term of the source is
`sin(ring_freq * t)` times this envelope. -/
def ring_envelope (ring_amp t : ℝ) : ℝ :=
  ring_amp * Real.exp (-|t| / 0.3)

/-- Helper: for a nonpositive exponent `u` and positive `depth`, the dip
value `1 - depth * exp u` lies in `[1 - depth, 1)`. -/
theorem dip_mem_of_nonpos {depth u : ℝ} (hd : 0 < depth) (hu : u ≤ 0) :
    1 - depth ≤ 1 - depth * Real.exp u ∧ 1 - depth * Real.exp u < 1 := by
  constructor
  · have h1 : Real.exp u ≤ 1 := Real.exp_le_one_iff.mpr hu
    have : depth * Real.exp u ≤ depth * 1 := by
      exact mul_le_mul_of_nonneg_left h1 hd.le
    linarith
  · have h2 : 0 < depth * Real.exp u := mul_pos hd (Real.exp_pos u)
    linarith

/-- Claim C1: for every depth and every sigma > 0, `symmetric_transit`
returns a flux series whose value at each grid point `t = time i` equals
`1 - depth * exp(-0.5 * (t / sigma) ^ 2)`. -/
theorem C1_symmetric_transit_formula (depth sigma : ℝ) (hs : 0 < sigma) (i : Fin 400) :
    symmetric_transit depth sigma i =
      1 - depth * Real.exp (-0.5 * (time i / sigma) ^ 2) := by
  simp [symmetric_transit, symmetric_transit_at]
  norm_num

/-- Witness for C1 at depth = 0.03, sigma = 0.1, first grid point. -/
theorem C1_witness :
    (0 : ℝ) < 0.1 ∧
      symmetric_transit 0.03 0.1 ⟨0, by norm_num⟩ =
        1 - 0.03 * Real.exp (-0.5 * (time ⟨0, by norm_num⟩ / 0.1) ^ 2) :=
  ⟨by norm_num, C1_symmetric_transit_formula 0.03 0.1 (by norm_num) ⟨0, by norm_num⟩⟩

/-- Claim C2: for every depth, sigma > 0 and asymmetry_factor > 0,
`asymmetric_transit` computes at each grid point `t = time i` the value
`1 - depth * exp(-0.5 * (t / w) ^ 2)` where the width `w` is `sigma` when
`t < 0` and `sigma * asymmetry_factor` when `t ≥ 0`. -/
theorem C2_asymmetric_transit_formula (depth sigma asymmetry_factor : ℝ)
    (hs : 0 < sigma) (ha : 0 < asymmetry_factor) (i : Fin 400) :
    asymmetric_transit depth sigma asymmetry_factor i =
      1 - depth *
        Real.exp (-0.5 *
          (time i / (if time i < 0 then sigma else sigma * asymmetry_factor)) ^ 2) := by
  simp only [asymmetric_transit, asymmetric_transit_at]
  split <;> norm_num

/-- Witness for C2 at depth = 0.2, sigma = 0.3, asymmetry_factor = 0.4,
first grid point. -/
theorem C2_witness :
    (0 : ℝ) < 0.3 ∧ (0 : ℝ) < 0.4 ∧
      asymmetric_transit 0.2 0.3 0.4 ⟨0, by norm_num⟩ =
        1 - 0.2 *
          Real.exp (-0.5 *
            (time ⟨0, by norm_num⟩ /
              (if time ⟨0, by norm_num⟩ < 0 then 0.3 else 0.3 * 0.4)) ^ 2) :=
  ⟨by norm_num, by norm_num,
    C2_asymmetric_transit_formula 0.2 0.3 0.4 (by norm_num) (by norm_num) ⟨0, by norm_num⟩⟩

/-- Claim C3: for every parameter choice and at every grid point,
`ringed_transit` equals the `asymmetric_transit` value for the same
(depth, sigma, asymmetry_factor) plus the modulation term
`ring_amp * sin(ring_freq * t) * exp(-|t| / 0.3)`; the modulation term is
the same expression on both sides of t = 0 (only the base Gaussian term
is split by the sign of t). -/
theorem C3_ringed_decomposition (depth sigma asymmetry_factor ring_amp ring_freq : ℝ)
    (hs : 0 < sigma) (ha : 0 < asymmetry_factor) (i : Fin 400) :
    ringed_transit depth sigma asymmetry_factor ring_amp ring_freq i =
      asymmetric_transit depth sigma asymmetry_factor i +
        ring_mod ring_amp ring_freq (time i) := by
  simp only [ringed_transit, ringed_transit_at, asymmetric_transit,
    asymmetric_transit_at, ring_mod]
  split <;> ring

/-- Witness for C3 at the parameters of the script's `flux_20` call
(depth = 0.2, sigma = 0.3, asymmetry_factor = 0.4, ring_amp = 0.03,
ring_freq = 20), first grid point. -/
theorem C3_witness :
    (0 : ℝ) < 0.3 ∧ (0 : ℝ) < 0.4 ∧
      ringed_transit 0.2 0.3 0.4 0.03 20 ⟨0, by norm_num⟩ =
        asymmetric_transit 0.2 0.3 0.4 ⟨0, by norm_num⟩ +
          ring_mod 0.03 20 (time ⟨0, by norm_num⟩) :=
  ⟨by norm_num, by norm_num,
    C3_ringed_decomposition 0.2 0.3 0.4 0.03 20 (by norm_num) (by norm_num) ⟨0, by norm_num⟩⟩

/-- Counterexample to claim C4: at the concrete invalid input sigma = 0
(with depth = 0.03, asymmetry_factor = 2.0, ring_amp = 0.01,
ring_freq = 25, the source's default-style parameters), none of the three
model functions raises `InvalidParameter`: each call returns normally. -/
theorem C4_counterexample :
    symmetric_transit_run 0.03 0 ≠ Except.error ModelError.InvalidParameter ∧
    asymmetric_transit_run 0.03 0 2.0 ≠ Except.error ModelError.InvalidParameter ∧
    ringed_transit_run 0.03 0 2.0 0.01 25 ≠ Except.error ModelError.InvalidParameter := by
  refine ⟨?_, ?_, ?_⟩ <;>
    simp [symmetric_transit_run, asymmetric_transit_run, ringed_transit_run]

/-- Amended claim C4: the source performs no parameter validation — even
when sigma ≤ 0 or asymmetry_factor ≤ 0, each of the three model functions
returns a numeric flux series normally and never raises an
`InvalidParameter` error. -/
theorem C4_no_validation (depth sigma asymmetry_factor ring_amp ring_freq : ℝ)
    (h : sigma ≤ 0 ∨ asymmetry_factor ≤ 0) :
    symmetric_transit_run depth sigma = Except.ok (symmetric_transit depth sigma) ∧
    asymmetric_transit_run depth sigma asymmetry_factor =
      Except.ok (asymmetric_transit depth sigma asymmetry_factor) ∧
    ringed_transit_run depth sigma asymmetry_factor ring_amp ring_freq =
      Except.ok (ringed_transit depth sigma asymmetry_factor ring_amp ring_freq) :=
  ⟨rfl, rfl, rfl⟩

/-- Witness for the amended C4 at sigma = 0. -/
theorem C4_witness :
    ((0 : ℝ) ≤ 0 ∨ (2.0 : ℝ) ≤ 0) ∧
      (symmetric_transit_run 0.03 0 = Except.ok (symmetric_transit 0.03 0) ∧
        asymmetric_transit_run 0.03 0 2.0 = Except.ok (asymmetric_transit 0.03 0 2.0) ∧
        ringed_transit_run 0.03 0 2.0 0.01 25 =
          Except.ok (ringed_transit 0.03 0 2.0 0.01 25)) :=
  ⟨Or.inl le_rfl, C4_no_validation 0.03 0 2.0 0.01 25 (Or.inl le_rfl)⟩

/-- Claim C5: for every depth and sigma > 0, `asymmetric_transit` with
asymmetry_factor = 1 agrees with `symmetric_transit(depth, sigma)` at
every grid point. -/
theorem C5_asymmetry_factor_one (depth sigma : ℝ) (hs : 0 < sigma) (i : Fin 400) :
    asymmetric_transit depth sigma 1 i = symmetric_transit depth sigma i := by
  simp only [asymmetric_transit, asymmetric_transit_at,
    symmetric_transit, symmetric_transit_at, mul_one]
  split <;> rfl

/-- Witness for C5 at depth = 0.03, sigma = 0.1, first grid point. -/
theorem C5_witness :
    (0 : ℝ) < 0.1 ∧
      asymmetric_transit 0.03 0.1 1 ⟨0, by norm_num⟩ =
        symmetric_transit 0.03 0.1 ⟨0, by norm_num⟩ :=
  ⟨by norm_num, C5_asymmetry_factor_one 0.03 0.1 (by norm_num) ⟨0, by norm_num⟩⟩

/-- Claim C6: at t = 0 the loop-body formulas of both `symmetric_transit`
and `asymmetric_transit` return exactly 1 - depth; `asymmetric_transit`
reaches this value through the egress branch, because the comparison
`t < 0` is false at t = 0 (so the egress width sigma * asymmetry_factor
is the one used). -/
theorem C6_center_value (depth sigma asymmetry_factor : ℝ)
    (hs : 0 < sigma) (ha : 0 < asymmetry_factor) :
    ¬ ((0 : ℝ) < 0) ∧
    symmetric_transit_at depth sigma 0 = 1 - depth ∧
    asymmetric_transit_at depth sigma asymmetry_factor 0 =
      1 - depth * Real.exp (-0.5 * ((0 : ℝ) / (sigma * asymmetry_factor)) ^ 2) ∧
    asymmetric_transit_at depth sigma asymmetry_factor 0 = 1 - depth := by
  refine ⟨lt_irrefl 0, ?_, ?_, ?_⟩ <;>
    simp [symmetric_transit_at, asymmetric_transit_at] <;> norm_num

/-- Witness for C6 at depth = 0.03, sigma = 0.1, asymmetry_factor = 2. -/
theorem C6_witness :
    (0 : ℝ) < 0.1 ∧ (0 : ℝ) < 2 ∧
      (¬ ((0 : ℝ) < 0) ∧
        symmetric_transit_at 0.03 0.1 0 = 1 - 0.03 ∧
        asymmetric_transit_at 0.03 0.1 2 0 =
          1 - 0.03 * Real.exp (-0.5 * ((0 : ℝ) / (0.1 * 2)) ^ 2) ∧
        asymmetric_transit_at 0.03 0.1 2 0 = 1 - 0.03) :=
  ⟨by norm_num, by norm_num, C6_center_value 0.03 0.1 2 (by norm_num) (by norm_num)⟩

/-- The grid index paired with `i` by negation: `time (mirror i) = -(time i)`. -/
def mirror (i : Fin 400) : Fin 400 :=
  ⟨399 - i.val, Nat.lt_succ_of_le (Nat.sub_le 399 i.val)⟩

/-- Helper: the grid pairs each point with its negation. -/
theorem time_mirror (i : Fin 400) : time (mirror i) = -(time i) := by
  have hi : i.val ≤ 399 := Nat.lt_succ_iff.mp i.isLt
  simp only [time, mirror]
  rw [Nat.cast_sub hi]
  push_cast
  ring

/-- Claim C7: for every valid (depth, sigma), the flux series of
`symmetric_transit` is symmetric about zero: the 400-point grid over
[-1.5, 1.5] pairs each point `time i` with its negation `time (mirror i)`,
and the flux agrees at the two paired points. -/
theorem C7_symmetric_flux_even (depth sigma : ℝ) (hs : 0 < sigma) (i : Fin 400) :
    time (mirror i) = -(time i) ∧
      symmetric_transit depth sigma (mirror i) = symmetric_transit depth sigma i := by
  refine ⟨time_mirror i, ?_⟩
  simp only [symmetric_transit, symmetric_transit_at, time_mirror i]
  rw [neg_div, neg_sq]

/-- Witness for C7 at depth = 0.03, sigma = 0.1, first grid point (paired
with the last). -/
theorem C7_witness :
    (0 : ℝ) < 0.1 ∧
      (time (mirror ⟨0, by norm_num⟩) = -(time ⟨0, by norm_num⟩) ∧
        symmetric_transit 0.03 0.1 (mirror ⟨0, by norm_num⟩) =
          symmetric_transit 0.03 0.1 ⟨0, by norm_num⟩) :=
  ⟨by norm_num, C7_symmetric_flux_even 0.03 0.1 (by norm_num) ⟨0, by norm_num⟩⟩

/-- Claim C8: with ring_amp and ring_freq held fixed, the ring-modulation
term of `ringed_transit` is `sin(ring_freq * t)` times the exponential
envelope `ring_amp * exp(-|t| / 0.3)`, and for ring_amp > 0 this envelope
strictly decreases as |t| increases: whenever |t1| < |t2| the envelope at
t2 is strictly smaller than at t1. -/
theorem C8_envelope_decay (ring_amp ring_freq t1 t2 : ℝ)
    (hra : 0 < ring_amp) (h : |t1| < |t2|) :
    (∀ t, ring_mod ring_amp ring_freq t =
        Real.sin (ring_freq * t) * ring_envelope ring_amp t) ∧
      ring_envelope ring_amp t2 < ring_envelope ring_amp t1 := by
  constructor
  · intro t
    simp only [ring_mod, ring_envelope]
    ring
  · simp only [ring_envelope]
    have hexp : Real.exp (-|t2| / 0.3) < Real.exp (-|t1| / 0.3) :=
      Real.exp_lt_exp.mpr ((div_lt_div_iff_of_pos_right (by norm_num)).mpr (neg_lt_neg h))
    exact mul_lt_mul_of_pos_left hexp hra

/-- Witness for C8 at ring_amp = 1, ring_freq = 25, t1 = 0, t2 = 1. -/
theorem C8_witness :
    (0 : ℝ) < 1 ∧ |(0 : ℝ)| < |(1 : ℝ)| ∧
      ((∀ t, ring_mod 1 25 t = Real.sin (25 * t) * ring_envelope 1 t) ∧
        ring_envelope 1 1 < ring_envelope 1 0) :=
  ⟨by norm_num, by norm_num, C8_envelope_decay 1 25 0 1 (by norm_num) (by norm_num)⟩

/-- Claim C9: the shared time grid is a strictly increasing, evenly
spaced (step 3/399) sequence of exactly 400 points from -1.5 to 1.5,
and every flux series produced by any of the three model functions has
exactly one value per grid point (length 400, same domain for all). -/
theorem C9_grid_invariants (depth sigma asymmetry_factor ring_amp ring_freq : ℝ) :
    time_list.length = 400 ∧
    (symmetric_transit_list depth sigma).length = 400 ∧
    (asymmetric_transit_list depth sigma asymmetry_factor).length = 400 ∧
    (ringed_transit_list depth sigma asymmetry_factor ring_amp ring_freq).length = 400 ∧
    time ⟨0, by norm_num⟩ = -1.5 ∧
    time ⟨399, by norm_num⟩ = 1.5 ∧
    (∀ i j : Fin 400, i < j → time i < time j) ∧
    (∀ (i : ℕ) (h : i + 1 < 400),
      time ⟨i + 1, h⟩ - time ⟨i, Nat.lt_of_succ_lt h⟩ = 3 / 399) := by
  refine ⟨?_, ?_, ?_, ?_, ?_, ?_, ?_, ?_⟩
  · simp only [time_list, List.length_ofFn]
  · simp only [symmetric_transit_list, List.length_ofFn]
  · simp only [asymmetric_transit_list, List.length_ofFn]
  · simp only [ringed_transit_list, List.length_ofFn]
  · simp [time]
  · norm_num [time]
  · intro i j hij
    simp only [time]
    have hv : (i.val : ℝ) < (j.val : ℝ) := by
      exact_mod_cast (Fin.lt_def.mp hij)
    have := mul_lt_mul_of_pos_right hv (by norm_num : (0 : ℝ) < 3 / 399)
    linarith
  · intro i h
    simp only [time]
    push_cast
    ring

/-- Witness for C9: concrete series lengths and a concrete increasing
pair of grid points. -/
theorem C9_witness :
    (symmetric_transit_list 0.03 0.1).length = 400 ∧
      time ⟨0, by norm_num⟩ < time ⟨1, by norm_num⟩ :=
  ⟨(C9_grid_invariants 0.03 0.1 2 0.01 25).2.1,
    (C9_grid_invariants 0.03 0.1 2 0.01 25).2.2.2.2.2.2.1
      ⟨0, by norm_num⟩ ⟨1, by norm_num⟩ (by decide)⟩

/-- Claim C10: for 0 < depth < 1, sigma > 0 and asymmetry_factor > 0,
every value of the flux series of `symmetric_transit` and of
`asymmetric_transit` lies in [1 - depth, 1): it never reaches the
unobstructed baseline 1 and never dips below 1 - depth. -/
theorem C10_flux_range (depth sigma asymmetry_factor : ℝ)
    (hd0 : 0 < depth) (hd1 : depth < 1) (hs : 0 < sigma) (ha : 0 < asymmetry_factor)
    (i : Fin 400) :
    (1 - depth ≤ symmetric_transit depth sigma i ∧
        symmetric_transit depth sigma i < 1) ∧
      (1 - depth ≤ asymmetric_transit depth sigma asymmetry_factor i ∧
        asymmetric_transit depth sigma asymmetry_factor i < 1) := by
  have key : ∀ w : ℝ,
      1 - depth ≤ 1.0 - depth * Real.exp (-0.5 * (time i / w) ^ 2) ∧
        1.0 - depth * Real.exp (-0.5 * (time i / w) ^ 2) < 1 := by
    intro w
    have hu : -0.5 * (time i / w) ^ 2 ≤ 0 := by nlinarith [sq_nonneg (time i / w)]
    have h := dip_mem_of_nonpos hd0 hu
    have h10 : (1.0 : ℝ) = 1 := by norm_num
    rw [h10]
    exact h
  refine ⟨?_, ?_⟩
  · simpa only [symmetric_transit, symmetric_transit_at] using key sigma
  · simp only [asymmetric_transit, asymmetric_transit_at]
    split
    · exact key sigma
    · exact key (sigma * asymmetry_factor)

/-- Witness for C10 at depth = 0.03, sigma = 0.1, asymmetry_factor = 2,
first grid point. -/
theorem C10_witness :
    (0 : ℝ) < 0.03 ∧ (0.03 : ℝ) < 1 ∧ (0 : ℝ) < 0.1 ∧ (0 : ℝ) < 2 ∧
      ((1 - 0.03 ≤ symmetric_transit 0.03 0.1 ⟨0, by norm_num⟩ ∧
          symmetric_transit 0.03 0.1 ⟨0, by norm_num⟩ < 1) ∧
        (1 - 0.03 ≤ asymmetric_transit 0.03 0.1 2 ⟨0, by norm_num⟩ ∧
          asymmetric_transit 0.03 0.1 2 ⟨0, by norm_num⟩ < 1)) :=
  ⟨by norm_num, by norm_num, by norm_num, by norm_num,
    C10_flux_range 0.03 0.1 2 (by norm_num) (by norm_num) (by norm_num) (by norm_num)
      ⟨0, by norm_num⟩⟩

end

end DemoPlots
